import Mathlib

/-!
Verification of the kiali graph package (graph construction, options
resolution, and cytoscape serialization) against its specification.

The Go source is shallowly embedded:
* strings are Lean `String`s, Go float64 values are modelled as exact
  rationals `ℚ` (display formatting `%.2f` is dropped: an emitted field is
  modelled by `some q`, an omitted `omitempty` field by `none`),
* Go's `panic` is modelled by an `Option` result (`none` = fatal failure),
* Go maps are modelled as association lists whose order records the
  (nondeterministic) iteration order,
* the cyclic `*Node` pointers stored in edges are flattened: an edge stores
  the scalar identity fields and metadata of its endpoints (exactly the data
  the serializer reads through those pointers),
* the md5 node hash is abstracted as a function parameter `h : String → String`.
-/

namespace graph

def GraphTypeApp : String := "app"
def GraphTypeService : String := "service"
def GraphTypeVersionedApp : String := "versionedApp"
def GraphTypeWorkload : String := "workload"
def NodeTypeApp : String := "app"
def NodeTypeService : String := "service"
def NodeTypeUnknown : String := "unknown"
def NodeTypeWorkload : String := "workload"
def UnknownApp : String := "unknown"
def UnknownNamespace : String := "unknown"
def UnknownService : String := "unknown"
def UnknownVersion : String := "unknown"
def UnknownWorkload : String := "unknown"

/-- A value stored in a `map[string]interface{}` metadata bag: the code and
serializer only ever store float64, bool, string, or map[string]bool. -/
inductive MetaValue where
  | num (q : ℚ)
  | bool (b : Bool)
  | str (s : String)
  | boolMap (m : List (String × Bool))
deriving DecidableEq, Repr

/-- Go `map[string]interface{}`, as an association list. -/
abbrev MetaMap := List (String × MetaValue)

/-- The scalar part of a Go `Node` (everything except the edge list). Edges
hold `*Node` back-references to their endpoints; the embedding flattens the
pointer cycle by storing this scalar part of each endpoint in the edge. -/
structure NodeHeader where
  ID : String := ""
  NodeType : String := ""
  Namespace : String := ""
  Workload : String := ""
  App : String := ""
  Version : String := ""
  Service : String := ""
  Metadata : MetaMap := []
deriving DecidableEq, Repr

structure Edge where
  Source : NodeHeader
  Dest : NodeHeader
  Metadata : MetaMap := []
deriving DecidableEq, Repr

structure Node extends NodeHeader where
  Edges : List Edge := []
deriving DecidableEq, Repr

/-- Go `TrafficMap` is `map[string]*Node`; modelled as an association list
whose order is the map's iteration order. -/
abbrev TrafficMap := List (String × Node)

abbrev workloadOk (workload : String) : Prop :=
  workload ≠ "" ∧ workload ≠ UnknownWorkload

abbrev appOk (app : String) : Prop :=
  app ≠ "" ∧ app ≠ UnknownApp

abbrev serviceOk (service : String) : Prop :=
  service ≠ "" ∧ service ≠ UnknownService

/-- Go `graph.Id`. A `none` result models the `panic` calls. -/
def Id (ns workload app version service graphType : String) :
    Option (String × String) :=
  if UnknownNamespace = ns ∧ UnknownWorkload = workload ∧ UnknownApp = app ∧ "" = service then
    some ("unknown_source", NodeTypeUnknown)
  else if UnknownWorkload = workload ∧ UnknownApp = app ∧ UnknownService = service then
    some ("svc_" ++ ns ++ "_unknown", NodeTypeService)
  else if ¬ workloadOk workload ∧ ¬ appOk app ∧ ¬ serviceOk service then
    none
  else if graphType = GraphTypeWorkload ∨ graphType = GraphTypeService then
    if ¬ workloadOk workload ∧ ¬ serviceOk service then
      none
    else if ¬ workloadOk workload then
      some ("svc_" ++ ns ++ "_" ++ service, NodeTypeService)
    else
      some ("wl_" ++ ns ++ "_" ++ workload, NodeTypeWorkload)
  else if appOk app then
    if graphType = GraphTypeVersionedApp then
      some ("vapp_" ++ ns ++ "_" ++ workload, NodeTypeApp)
    else
      some ("app_" ++ ns ++ "_" ++ app, NodeTypeApp)
  else if workloadOk workload then
    some ("wl_" ++ ns ++ "_" ++ workload, NodeTypeWorkload)
  else
    some ("svc_" ++ ns ++ "_" ++ service, NodeTypeService)

/-- The field trimming switch of `NewNodeExplicit`, returning the trimmed
(workload, app, version, service). -/
def trimFields (workload app version service nodeType graphType : String) :
    String × String × String × String :=
  if nodeType = NodeTypeWorkload then
    (workload,
     if app = UnknownApp then "" else app,
     if version = UnknownVersion then "" else version,
     "")
  else if nodeType = NodeTypeApp then
    (if graphType = GraphTypeVersionedApp then workload else "",
     app,
     if graphType = GraphTypeVersionedApp then version else "",
     "")
  else if nodeType = NodeTypeService then
    ("", "", "", service)
  else
    (workload, app, version, service)

def NewNodeExplicit (id ns workload app version service nodeType graphType : String) :
    Node :=
  let f := trimFields workload app version service nodeType graphType
  { ID := id
    NodeType := nodeType
    Namespace := ns
    Workload := f.1
    App := f.2.1
    Version := f.2.2.1
    Service := f.2.2.2
    Metadata := []
    Edges := [] }

/-- Go `graph.NewNode`; `none` when `Id` fails fatally. -/
def NewNode (ns workload app version service graphType : String) : Option Node :=
  (Id ns workload app version service graphType).map fun p =>
    NewNodeExplicit p.1 ns workload app version service p.2 graphType

def NewEdge (source dest : NodeHeader) : Edge :=
  { Source := source, Dest := dest, Metadata := [] }

/-- Go `(*Node).AddEdge`: returns the updated source node together with the
edge that Go returns by pointer. -/
def AddEdge (s : Node) (dest : Node) : Node × Edge :=
  let e := NewEdge s.toNodeHeader dest.toNodeHeader
  ({ s with Edges := s.Edges ++ [e] }, e)

end graph

namespace options

def AppenderAll : String := "_all_"

def GroupByVersion : String := "version"

def NamespaceAll : String := "all"

def NamespaceIstioSystem : String := "istio-system"

/-- Go `options.VendorOptions`. -/
structure VendorOptions where
  GraphType : String := ""
  GroupBy : String := ""
  Timestamp : Int := 0
deriving DecidableEq, Repr

/-- The appender pipeline stages. The Go values carry configuration fields
(quantile, namespaces, ...) that play no role in selection or ordering and
are elided here. -/
inductive Appender where
  | deadNode
  | responseTime
  | securityPolicy
  | unusedNode
  | istio
  | sidecarsCheck
deriving DecidableEq, Repr

/-- Modelled from the spec: the appender package (not under src/) defines a
name constant per appender; the spec says the filter list is
case-insensitive and an appender matches "its own name (full or an accepted
short alias)", so the full names are taken in lower case. -/
def DeadNodeAppenderName : String := "deadnode"

def ResponseTimeAppenderName : String := "responsetime"

def SecurityPolicyAppenderName : String := "securitypolicy"

def UnusedNodeAppenderName : String := "unusednode"

def IstioAppenderName : String := "istio"

def SidecarsCheckAppenderName : String := "sidecarscheck"

def startsWithChars : List Char → List Char → Bool
  | [], _ => true
  | _ :: _, [] => false
  | a :: as, b :: bs => a == b && startsWithChars as bs

def containsChars (sub : List Char) : List Char → Bool
  | [] => startsWithChars sub []
  | c :: t => startsWithChars sub (c :: t) || containsChars sub t

/-- Go `strings.Contains`. -/
def strContains (s sub : String) : Bool :=
  containsChars sub.toList s.toList

/-- The selection test `csl == AppenderAll || strings.Contains(csl, Name) ||
strings.Contains(csl, "alias")` that guards each append in
`parseAppenders`. -/
def selected (csl fullName shortName : String) : Bool :=
  csl == AppenderAll || strContains csl fullName || strContains csl shortName

def appenderOrder : List Appender :=
  [Appender.deadNode, Appender.responseTime, Appender.securityPolicy,
   Appender.unusedNode, Appender.istio, Appender.sidecarsCheck]

/-- Go `strings.ToLower`, via per-character folding (core `String.toLower`
is defined by well-founded recursion and does not reduce in the kernel). -/
def strToLower (s : String) : String :=
  String.mk (s.toList.map Char.toLower)

/-- The filter string used by `parseAppenders`: the lower-cased `appenders`
query parameter when present, the select-all marker otherwise. -/
def cslOf (hasAppendersParam : Bool) (appendersParam : String) : String :=
  if hasAppendersParam then strToLower appendersParam else AppenderAll

/-- Go `parseAppenders`. `hasAppendersParam` is the `ok` of the
`params["appenders"]` lookup; `appendersParam` is the raw parameter value.
The configuration carried by each appender value is elided (see
`Appender`). -/
def parseAppenders (hasAppendersParam : Bool) (appendersParam : String) :
    List Appender :=
  let csl := cslOf hasAppendersParam appendersParam
  (if selected csl DeadNodeAppenderName "dead_node" then [Appender.deadNode] else []) ++
  (if selected csl ResponseTimeAppenderName "response_time" then [Appender.responseTime] else []) ++
  (if selected csl SecurityPolicyAppenderName "security_policy" then [Appender.securityPolicy] else []) ++
  (if selected csl UnusedNodeAppenderName "unused_node" then [Appender.unusedNode] else []) ++
  (if selected csl IstioAppenderName "istio" then [Appender.istio] else []) ++
  (if selected csl SidecarsCheckAppenderName "sidecars_check" then [Appender.sidecarsCheck] else [])

/-- Seconds between the `time.Time` zero value (January 1, year 1 UTC) and
the Unix epoch. Times are modelled as integer nanoseconds since the zero
time, so `IsZero` is `= 0`. -/
def unixToInternalSeconds : Int := 62135596800

/-- Go `time.Unix(sec, 0)`. -/
def timeUnix (sec : Int) : Int :=
  (sec + unixToInternalSeconds) * 1000000000

def maxDuration : Int := 9223372036854775807

def minDuration : Int := -9223372036854775808

/-- Go `time.Time.Sub`: the difference saturates to the int64
`time.Duration` range. -/
def timeSub (t u : Int) : Int :=
  max minDuration (min maxDuration (t - u))

/-- Go `resolveNamespaceDuration`. `now` stands for `time.Now()`, passed
explicitly. Durations are integer nanoseconds. -/
def resolveNamespaceDuration (nsCreationTime requestedRange queryTime now : Int) : Int :=
  if nsCreationTime ≠ 0 then
    let referenceTime := if queryTime ≠ 0 then timeUnix queryTime else now
    let nsLifetime := timeSub referenceTime nsCreationTime
    if nsLifetime < requestedRange then nsLifetime else requestedRange
  else
    requestedRange

/-- The clamping formula exactly as the spec words it:
`min(requested, referenceTime - creationTime)` with the reference time being
the query timestamp, or now when the query timestamp is zero. Stated only to
be compared against `resolveNamespaceDuration`. -/
def specClampedDuration (nsCreationTime requestedRange queryTime now : Int) : Int :=
  min requestedRange ((if queryTime ≠ 0 then timeUnix queryTime else now) - nsCreationTime)

end options

namespace cytoscape

/-- Go `cytoscape.NodeData`. Fields serialized with `omitempty` whose values
come from `%.2f`-formatted rates are modelled as `Option ℚ` (`none` =
field absent). -/
structure NodeData where
  Id : String := ""
  Parent : String := ""
  NodeType : String := ""
  Namespace : String := ""
  Workload : String := ""
  App : String := ""
  Version : String := ""
  Service : String := ""
  DestServices : List (String × Bool) := []
  Rate : Option ℚ := none
  Rate3xx : Option ℚ := none
  Rate4xx : Option ℚ := none
  Rate5xx : Option ℚ := none
  RateOut : Option ℚ := none
  RateTcpSent : Option ℚ := none
  RateTcpSentOut : Option ℚ := none
  HasCB : Bool := false
  HasMissingSC : Bool := false
  HasVS : Bool := false
  IsDead : Bool := false
  IsEgress : Bool := false
  IsGroup : String := ""
  IsInaccessible : Bool := false
  IsMisconfigured : String := ""
  IsOutside : Bool := false
  IsRoot : Bool := false
  IsUnused : Bool := false
deriving DecidableEq, Repr

instance : Inhabited NodeData := ⟨{}⟩

/-- Go `cytoscape.EdgeData`. -/
structure EdgeData where
  Id : String := ""
  Source : String := ""
  Target : String := ""
  Rate : Option ℚ := none
  Rate3xx : Option ℚ := none
  Rate4xx : Option ℚ := none
  Rate5xx : Option ℚ := none
  PercentErr : Option ℚ := none
  PercentRate : Option ℚ := none
  ResponseTime : Option ℚ := none
  IsMTLS : Bool := false
  IsUnused : Bool := false
  TcpSentRate : Option ℚ := none
deriving DecidableEq, Repr

/-- Go `cytoscape.Elements`; the `NodeWrapper`/`EdgeWrapper` indirection
(a pointer to the data) is dropped. -/
structure Elements where
  Nodes : List NodeData := []
  Edges : List EdgeData := []
deriving DecidableEq, Repr

structure Config where
  Timestamp : Int := 0
  GraphType : String := ""
  Elements : Elements := {}
deriving DecidableEq, Repr

/-- Go `nodeHash`, with `h` abstracting the md5 hex digest. -/
def nodeHash (h : String → String) (id : String) : String := h id

/-- Go `edgeHash`, with `h` abstracting the md5 hex digest. -/
def edgeHash (h : String → String) (src dst protocol : String) : String :=
  h (src ++ "." ++ dst ++ "." ++ protocol)

/-- Go `getRate`: missing key means 0. Go type-asserts float64 and would
panic on a value of another type; such values never occur and the model
returns 0 for them. -/
def getRate (md : graph.MetaMap) (k : String) : ℚ :=
  match md.lookup k with
  | some (graph.MetaValue.num q) => q
  | _ => 0

/-- The `if val, ok := md[k]; ok { x = val.(bool) }` pattern. -/
def metaBoolD (md : graph.MetaMap) (k : String) (dflt : Bool) : Bool :=
  match md.lookup k with
  | some (graph.MetaValue.bool b) => b
  | _ => dflt

/-- The `if val, ok := md[k]; ok { x = val.(string) }` pattern. -/
def metaStrD (md : graph.MetaMap) (k : String) (dflt : String) : String :=
  match md.lookup k with
  | some (graph.MetaValue.str s) => s
  | _ => dflt

/-- The `if val, ok := md[k]; ok { x = val.(map[string]bool) }` pattern. -/
def metaBoolMapD (md : graph.MetaMap) (k : String) (dflt : List (String × Bool)) :
    List (String × Bool) :=
  match md.lookup k with
  | some (graph.MetaValue.boolMap m) => m
  | _ => dflt

/-- Presence-tested float64 lookup (used for `responseTime`). -/
def metaNum (md : graph.MetaMap) (k : String) : Option ℚ :=
  match md.lookup k with
  | some (graph.MetaValue.num q) => some q
  | _ => none

/-- Go `addNodeTelemetry`. -/
def addNodeTelemetry (s : graph.Node) (nd : NodeData) : NodeData :=
  let rate := getRate s.Metadata "rate"
  let nd :=
    if 0 < rate then
      let rate3xx := getRate s.Metadata "rate3xx"
      let rate4xx := getRate s.Metadata "rate4xx"
      let rate5xx := getRate s.Metadata "rate5xx"
      { nd with
        Rate := some rate,
        Rate3xx := if 0 < rate3xx then some rate3xx else nd.Rate3xx,
        Rate4xx := if 0 < rate4xx then some rate4xx else nd.Rate4xx,
        Rate5xx := if 0 < rate5xx then some rate5xx else nd.Rate5xx }
    else nd
  let rateOut := getRate s.Metadata "rateOut"
  let nd := if 0 < rateOut then { nd with RateOut := some rateOut } else nd
  let tcpSent := getRate s.Metadata "tcpSentRate"
  let tcpSentOut := getRate s.Metadata "tcpSentRateOut"
  let nd := if 0 < tcpSent then { nd with RateTcpSent := some tcpSent } else nd
  if 0 < tcpSentOut then { nd with RateTcpSentOut := some tcpSentOut } else nd

/-- Go `addEdgeTelemetry`. When the edge carries a positive rate the Go code
computes `percentRate := rate / rateOut * 100` in float64 arithmetic; for
`rateOut = 0` that quotient is +Inf (the branch has `rate > 0`), which is
never `< 100`, so the model leaves the field unset in that case. -/
def addEdgeTelemetry (ed : EdgeData) (e : graph.Edge) (o : options.VendorOptions) :
    EdgeData :=
  let rate := getRate e.Metadata "rate"
  let ed :=
    if 0 < rate then
      let rate3xx := getRate e.Metadata "rate3xx"
      let rate4xx := getRate e.Metadata "rate4xx"
      let rate5xx := getRate e.Metadata "rate5xx"
      let rateErr := rate4xx + rate5xx
      let percentErr := rateErr / rate * 100
      let rateOut := getRate e.Source.Metadata "rateOut"
      let percentRate := rate / rateOut * 100
      let ed :=
        { ed with
          Rate := some rate,
          Rate3xx := if 0 < rate3xx then some rate3xx else ed.Rate3xx,
          Rate4xx := if 0 < rate4xx then some rate4xx else ed.Rate4xx,
          Rate5xx := if 0 < rate5xx then some rate5xx else ed.Rate5xx,
          PercentErr := if 0 < percentErr then some percentErr else ed.PercentErr,
          ResponseTime :=
            match metaNum e.Metadata "responseTime" with
            | some rt => some rt
            | none => ed.ResponseTime }
      if rateOut ≠ 0 ∧ percentRate < 100 then
        { ed with PercentRate := some percentRate }
      else ed
    else
      { ed with IsUnused := metaBoolD e.Source.Metadata "isUnused" ed.IsUnused }
  let ed := { ed with IsMTLS := metaBoolD e.Metadata "isMTLS" ed.IsMTLS }
  let tcpSentRate := getRate e.Metadata "tcpSentRate"
  if 0 < tcpSentRate then { ed with TcpSentRate := some tcpSentRate } else ed

/-- The per-node body of `buildConfig`. -/
def mkNodeData (h : String → String) (id : String) (n : graph.Node) : NodeData :=
  let nd : NodeData :=
    { Id := nodeHash h id,
      NodeType := n.NodeType,
      Namespace := n.Namespace,
      Workload := n.Workload,
      App := n.App,
      Version := n.Version,
      Service := n.Service }
  let nd := addNodeTelemetry n nd
  { nd with
    IsDead := metaBoolD n.Metadata "isDead" nd.IsDead,
    IsRoot := metaBoolD n.Metadata "isRoot" nd.IsRoot,
    IsUnused := metaBoolD n.Metadata "isUnused" nd.IsUnused,
    IsInaccessible := metaBoolD n.Metadata "isInaccessible" nd.IsInaccessible,
    HasCB := metaBoolD n.Metadata "hasCB" nd.HasCB,
    HasVS := metaBoolD n.Metadata "hasVS" nd.HasVS,
    HasMissingSC := metaBoolD n.Metadata "hasMissingSC" nd.HasMissingSC,
    IsMisconfigured := metaStrD n.Metadata "isMisconfigured" nd.IsMisconfigured,
    IsOutside := metaBoolD n.Metadata "isOutside" nd.IsOutside,
    DestServices := metaBoolMapD n.Metadata "destServices" nd.DestServices,
    IsEgress := metaBoolD n.Metadata "isEgress" nd.IsEgress }

/-- The per-edge body of `buildConfig`. -/
def mkEdgeData (h : String → String) (n : graph.Node) (e : graph.Edge)
    (o : options.VendorOptions) : EdgeData :=
  let sourceIdHash := nodeHash h n.ID
  let destIdHash := nodeHash h e.Dest.ID
  let protocol := metaStrD e.Metadata "protocol" ""
  let ed : EdgeData :=
    { Id := edgeHash h sourceIdHash destIdHash protocol,
      Source := sourceIdHash,
      Target := destIdHash }
  addEdgeTelemetry ed e o

/-- Go `buildConfig`: walks the traffic map in iteration order, producing the
node data list and the edge data list. -/
def buildConfig (h : String → String) (trafficMap : graph.TrafficMap)
    (o : options.VendorOptions) : List NodeData × List EdgeData :=
  (trafficMap.map fun p => mkNodeData h p.1 p.2,
   trafficMap.flatMap fun p => p.2.Edges.map fun e => mkEdgeData h p.2 e o)

/-- The `box_<namespace>_<app>` grouping key of `groupByVersion`. -/
def boxKey (ns app : String) : String :=
  "box_" ++ ns ++ "_" ++ app

/-- The members collected in `grouped[k]`: the app-type nodes whose box key
is `k`, in node-list order. -/
def groupMembers (nodes : List NodeData) (k : String) : List NodeData :=
  nodes.filter fun d => d.NodeType == graph.NodeTypeApp && boxKey d.Namespace d.App == k

/-- The distinct keys of `grouped`, in first-occurrence order (the Go map
iteration order is nondeterministic; the key set is the same). -/
def groupKeys (nodes : List NodeData) : List String :=
  ((nodes.filter fun d => d.NodeType == graph.NodeTypeApp).map
    fun d => boxKey d.Namespace d.App).dedup

/-- The compound node built for group `k` when it has more than one member
(`members[0]` supplies namespace and app; three flags are OR-ed over the
members). -/
def mkCompound (h : String → String) (nodes : List NodeData) (k : String) :
    Option NodeData :=
  let members := groupMembers nodes k
  if 1 < members.length then
    some
      { Id := nodeHash h k,
        NodeType := graph.NodeTypeApp,
        Namespace := members.headI.Namespace,
        App := members.headI.App,
        Version := "",
        IsGroup := options.GroupByVersion,
        HasMissingSC := members.any fun m => m.HasMissingSC,
        IsInaccessible := members.any fun m => m.IsInaccessible,
        IsOutside := members.any fun m => m.IsOutside }
  else none

/-- The `n.Parent = nodeId` assignment performed on each member of a group
with more than one member. -/
def updParent (h : String → String) (nodes : List NodeData) (d : NodeData) :
    NodeData :=
  if d.NodeType = graph.NodeTypeApp ∧
      1 < (groupMembers nodes (boxKey d.Namespace d.App)).length then
    { d with Parent := nodeHash h (boxKey d.Namespace d.App) }
  else d

/-- Go `groupByVersion`: members of multi-member groups get their `Parent`
set, and one compound node per such group is appended. -/
def groupByVersion (h : String → String) (nodes : List NodeData) : List NodeData :=
  nodes.map (updParent h nodes) ++ (groupKeys nodes).filterMap (mkCompound h nodes)

/-- Go `<` on strings (lexicographic), computed on the character lists so
that it reduces in the kernel (the `String.lt` decidability instance is
defined by well-founded recursion and does not). -/
def strLt (a b : String) : Bool :=
  decide (a.toList < b.toList)

/-- The node comparator of `NewConfig`'s `sort.Slice` call. -/
def nodeLess (a b : NodeData) : Bool :=
  if a.Namespace ≠ b.Namespace then strLt a.Namespace b.Namespace
  else if a.IsGroup ≠ b.IsGroup then strLt b.IsGroup a.IsGroup
  else if a.App ≠ b.App then strLt a.App b.App
  else if a.Version ≠ b.Version then strLt a.Version b.Version
  else if a.Service ≠ b.Service then strLt a.Service b.Service
  else strLt a.Workload b.Workload

def nodeLe (a b : NodeData) : Bool := ! nodeLess b a

/-- The edge comparator of `NewConfig`'s `sort.Slice` call. -/
def edgeLess (a b : EdgeData) : Bool :=
  if strLt a.Source b.Source then true
  else if strLt b.Source a.Source then false
  else strLt a.Target b.Target

def edgeLe (a b : EdgeData) : Bool := ! edgeLess b a

/-- The node list of `NewConfig` before sorting: the built nodes, with the
compound grouping pass applied exactly when the graph type is versioned app
and group-by is version. -/
def groupAppliedNodes (h : String → String) (trafficMap : graph.TrafficMap)
    (o : options.VendorOptions) : List NodeData :=
  if o.GraphType = graph.GraphTypeVersionedApp ∧ o.GroupBy = options.GroupByVersion then
    groupByVersion h (buildConfig h trafficMap o).1
  else (buildConfig h trafficMap o).1

/-- Go `NewConfig`. `sort.Slice` is modelled by `mergeSort` over the
comparator's reflexive closure; Go's sort is unstable, so ties between
distinct elements are implementation-defined there. -/
def NewConfig (h : String → String) (trafficMap : graph.TrafficMap)
    (o : options.VendorOptions) : Config :=
  { Timestamp := o.Timestamp,
    GraphType := o.GraphType,
    Elements :=
      { Nodes := (groupAppliedNodes h trafficMap o).mergeSort nodeLe,
        Edges := ((buildConfig h trafficMap o).2).mergeSort edgeLe } }

/-- The sort key realized by `nodeLess`: lexicographic on namespace,
isGroup descending, app, version, service, workload. -/
def nodeSortKey (d : NodeData) :
    Lex (String × Lex ((OrderDual String) ×
      Lex (String × Lex (String × Lex (String × String))))) :=
  toLex (d.Namespace, toLex (OrderDual.toDual d.IsGroup,
    toLex (d.App, toLex (d.Version, toLex (d.Service, d.Workload)))))

/-- The sort key realized by `edgeLess`: lexicographic on (source, target). -/
def edgeSortKey (e : EdgeData) : Lex (String × String) :=
  toLex (e.Source, e.Target)

/-- Equality on the node sort key type, routed through the structural string
equality test so that concrete witnesses evaluate in the kernel (the
linear-order-derived equality test goes through `String.ltb`, which is
defined by well-founded recursion). -/
instance : DecidableEq (Lex (String × Lex ((OrderDual String) ×
    Lex (String × Lex (String × Lex (String × String)))))) :=
  inferInstanceAs (DecidableEq (String × String × String × String × String × String))

/-- Equality on the edge sort key type, as for the node sort key type. -/
instance : DecidableEq (Lex (String × String)) :=
  inferInstanceAs (DecidableEq (String × String))

end cytoscape

/-- Two serialized app nodes in namespace `n` with app `a` and the same
version `v` but distinct internal ids. -/
def cexNodeA : cytoscape.NodeData :=
  { Id := "x", NodeType := "app", Namespace := "n", App := "a", Version := "v" }

def cexNodeB : cytoscape.NodeData :=
  { Id := "y", NodeType := "app", Namespace := "n", App := "a", Version := "v" }

/-- An edge carrying rate 5 whose source has outbound rate 10. -/
def cexEdge : graph.Edge :=
  { Source := { ID := "s", Metadata := [("rateOut", graph.MetaValue.num 10)] },
    Dest := { ID := "d" },
    Metadata := [("rate", graph.MetaValue.num 5)] }

/-- Two traffic-map nodes that tie on every node sort field but have
distinct ids. -/
def cexTMa : graph.Node :=
  { ID := "a", NodeType := "workload", Namespace := "n", Workload := "w" }

def cexTMb : graph.Node :=
  { ID := "b", NodeType := "workload", Namespace := "n", Workload := "w" }

/-- Two traffic-map nodes with distinct sort keys. -/
def cexTMc : graph.Node :=
  { ID := "c", NodeType := "workload", Namespace := "n1", Workload := "w1" }

def cexTMd : graph.Node :=
  { ID := "d", NodeType := "workload", Namespace := "n2", Workload := "w2" }

/-! ## Theorems -/

/-- C2: for every version and graphType argument, `Id` on namespace
"unknown", workload "unknown", app "unknown" and empty service returns id
"unknown_source" with node type unknown. -/
theorem c2_unknown_source_singularity (version graphType : String) :
    graph.Id "unknown" "unknown" "unknown" version "" graphType =
      some ("unknown_source", graph.NodeTypeUnknown) := rfl

/-- C10: the result of `Id` never depends on the version argument: whenever
`Id` returns normally, replacing the version leaves both the id and the node
type unchanged. -/
theorem c10_id_version_irrelevant (ns workload app service graphType v1 v2 : String)
    (hsome : (graph.Id ns workload app v1 service graphType).isSome = true) :
    graph.Id ns workload app v1 service graphType =
      graph.Id ns workload app v2 service graphType := rfl

theorem c10_id_version_irrelevant_witness :
    (graph.Id "n" "w" "a" "v1" "s" "workload").isSome = true ∧
    graph.Id "n" "w" "a" "v1" "s" "workload" = graph.Id "n" "w" "a" "v2" "s" "workload" :=
  ⟨by decide, c10_id_version_irrelevant "n" "w" "a" "s" "workload" "v1" "v2" (by decide)⟩

/-- C4: a node constructed by `NewNodeExplicit` with node type service has
empty App, Workload and Version whatever the caller supplied, and `Id`
rule 2 (workload, app and service all the unknown sentinel) always yields
`svc_<ns>_unknown` with type service. -/
theorem c4_service_trimming_invariant
    (id ns workload app version service graphType : String) :
    (graph.NewNodeExplicit id ns workload app version service graph.NodeTypeService graphType).App = "" ∧
    (graph.NewNodeExplicit id ns workload app version service graph.NodeTypeService graphType).Workload = "" ∧
    (graph.NewNodeExplicit id ns workload app version service graph.NodeTypeService graphType).Version = "" ∧
    graph.Id ns graph.UnknownWorkload graph.UnknownApp version graph.UnknownService graphType =
      some ("svc_" ++ ns ++ "_unknown", graph.NodeTypeService) := by
  refine ⟨?_, ?_, ?_, ?_⟩ <;>
    simp [graph.NewNodeExplicit, graph.trimFields, graph.Id,
      graph.NodeTypeService, graph.NodeTypeWorkload, graph.NodeTypeApp,
      graph.UnknownWorkload, graph.UnknownApp, graph.UnknownService,
      graph.UnknownNamespace]

/-- C9: `AddEdge` appends exactly one new edge, with the source and
destination nodes as endpoints and empty metadata, to the end of the
source's edge list, returns that edge, leaves the pre-existing edges
unchanged, and never deduplicates: adding the same destination twice leaves
two edges in the list. -/
theorem c9_addEdge_appends (s dest : graph.Node) :
    (graph.AddEdge s dest).1 =
      { s with Edges := s.Edges ++ [graph.NewEdge s.toNodeHeader dest.toNodeHeader] } ∧
    (graph.AddEdge s dest).2 = graph.NewEdge s.toNodeHeader dest.toNodeHeader ∧
    (graph.AddEdge s dest).2.Source = s.toNodeHeader ∧
    (graph.AddEdge s dest).2.Dest = dest.toNodeHeader ∧
    (graph.AddEdge s dest).2.Metadata = [] ∧
    (graph.AddEdge s dest).1.Edges.take s.Edges.length = s.Edges ∧
    (graph.AddEdge (graph.AddEdge s dest).1 dest).1.Edges =
      s.Edges ++ [graph.NewEdge s.toNodeHeader dest.toNodeHeader,
                  graph.NewEdge s.toNodeHeader dest.toNodeHeader] := by
  refine ⟨rfl, rfl, rfl, rfl, rfl, ?_, ?_⟩
  · exact List.take_left ..
  · simp [graph.AddEdge, graph.NewEdge]

/-- C3: `Id` fails fatally exactly when neither sentinel rule applies and
either no field resolves, or the graph type is workload/service and neither
workload nor service resolves; otherwise it returns normally, preferring
workload over service for workload/service graph types. -/
theorem c3_id_fatal_exactness (ns workload app version service graphType : String) :
    (graph.Id ns workload app version service graphType = none ↔
      (¬(graph.UnknownNamespace = ns ∧ graph.UnknownWorkload = workload ∧
          graph.UnknownApp = app ∧ "" = service) ∧
       ¬(graph.UnknownWorkload = workload ∧ graph.UnknownApp = app ∧
          graph.UnknownService = service) ∧
       ((¬ graph.workloadOk workload ∧ ¬ graph.appOk app ∧ ¬ graph.serviceOk service) ∨
        ((graphType = graph.GraphTypeWorkload ∨ graphType = graph.GraphTypeService) ∧
         ¬ graph.workloadOk workload ∧ ¬ graph.serviceOk service)))) ∧
    ((graphType = graph.GraphTypeWorkload ∨ graphType = graph.GraphTypeService) →
      graph.workloadOk workload →
      graph.Id ns workload app version service graphType =
        some ("wl_" ++ ns ++ "_" ++ workload, graph.NodeTypeWorkload)) ∧
    ((graphType = graph.GraphTypeWorkload ∨ graphType = graph.GraphTypeService) →
      ¬ graph.workloadOk workload → graph.serviceOk service →
      graph.Id ns workload app version service graphType =
        some ("svc_" ++ ns ++ "_" ++ service, graph.NodeTypeService)) := by
  refine ⟨?_, ?_, ?_⟩
  · unfold graph.Id
    split_ifs <;> simp_all <;> tauto
  · intro hgt hwl
    have h1 : ¬(graph.UnknownNamespace = ns ∧ graph.UnknownWorkload = workload ∧
        graph.UnknownApp = app ∧ "" = service) := fun hc => hwl.2 hc.2.1.symm
    have h2 : ¬(graph.UnknownWorkload = workload ∧ graph.UnknownApp = app ∧
        graph.UnknownService = service) := fun hc => hwl.2 hc.1.symm
    have h3 : ¬(¬ graph.workloadOk workload ∧ ¬ graph.appOk app ∧
        ¬ graph.serviceOk service) := fun hc => hc.1 hwl
    have h4 : ¬(¬ graph.workloadOk workload ∧ ¬ graph.serviceOk service) :=
      fun hc => hc.1 hwl
    unfold graph.Id
    rw [if_neg h1, if_neg h2, if_neg h3, if_pos hgt, if_neg h4, if_neg (fun hc => hc hwl)]
  · intro hgt hwl hsvc
    have h1 : ¬(graph.UnknownNamespace = ns ∧ graph.UnknownWorkload = workload ∧
        graph.UnknownApp = app ∧ "" = service) := fun hc => hsvc.1 hc.2.2.2.symm
    have h2 : ¬(graph.UnknownWorkload = workload ∧ graph.UnknownApp = app ∧
        graph.UnknownService = service) := fun hc => hsvc.2 hc.2.2.symm
    have h3 : ¬(¬ graph.workloadOk workload ∧ ¬ graph.appOk app ∧
        ¬ graph.serviceOk service) := fun hc => hc.2.2 hsvc
    have h4 : ¬(¬ graph.workloadOk workload ∧ ¬ graph.serviceOk service) :=
      fun hc => hc.2 hsvc
    unfold graph.Id
    rw [if_neg h1, if_neg h2, if_neg h3, if_pos hgt, if_neg h4, if_pos hwl]

theorem c3_id_fatal_exactness_witness :
    graph.Id "myns" "" "" "v" "" "workload" = none ∧
    graph.Id "myns" "w" "" "v" "s" "workload" =
      some ("wl_" ++ "myns" ++ "_" ++ "w", graph.NodeTypeWorkload) ∧
    graph.Id "myns" "" "" "v" "s" "service" =
      some ("svc_" ++ "myns" ++ "_" ++ "s", graph.NodeTypeService) :=
  ⟨(c3_id_fatal_exactness "myns" "" "" "v" "" "workload").1.mpr (by decide),
   (c3_id_fatal_exactness "myns" "w" "" "v" "s" "workload").2.1 (Or.inl rfl) (by decide),
   (c3_id_fatal_exactness "myns" "" "" "v" "s" "service").2.2 (Or.inr rfl) (by decide) (by decide)⟩


/-- C7: whatever the appenders filter parameter, the resulting appender list
is a subsequence of the fixed pipeline order dead-node, response-time,
security-policy, unused-node, istio, sidecars-check, and two filters that
select the same appenders produce identical pipelines, so the order of names
in the filter never changes the pipeline order. -/
theorem c7_appender_fixed_order (hasParam : Bool) (param : String) :
    (options.parseAppenders hasParam param).Sublist options.appenderOrder ∧
    (∀ hasParam2 param2,
      (options.selected (options.cslOf hasParam param) options.DeadNodeAppenderName "dead_node" =
         options.selected (options.cslOf hasParam2 param2) options.DeadNodeAppenderName "dead_node" ∧
       options.selected (options.cslOf hasParam param) options.ResponseTimeAppenderName "response_time" =
         options.selected (options.cslOf hasParam2 param2) options.ResponseTimeAppenderName "response_time" ∧
       options.selected (options.cslOf hasParam param) options.SecurityPolicyAppenderName "security_policy" =
         options.selected (options.cslOf hasParam2 param2) options.SecurityPolicyAppenderName "security_policy" ∧
       options.selected (options.cslOf hasParam param) options.UnusedNodeAppenderName "unused_node" =
         options.selected (options.cslOf hasParam2 param2) options.UnusedNodeAppenderName "unused_node" ∧
       options.selected (options.cslOf hasParam param) options.IstioAppenderName "istio" =
         options.selected (options.cslOf hasParam2 param2) options.IstioAppenderName "istio" ∧
       options.selected (options.cslOf hasParam param) options.SidecarsCheckAppenderName "sidecars_check" =
         options.selected (options.cslOf hasParam2 param2) options.SidecarsCheckAppenderName "sidecars_check") →
      options.parseAppenders hasParam param = options.parseAppenders hasParam2 param2) := by
  constructor
  · simp only [options.parseAppenders]
    split_ifs <;> decide
  · intro hasParam2 param2 hsel
    obtain ⟨e1, e2, e3, e4, e5, e6⟩ := hsel
    simp only [options.parseAppenders]
    rw [e1, e2, e3, e4, e5, e6]

theorem c7_appender_fixed_order_witness :
    (options.parseAppenders true "dead_node,istio").Sublist options.appenderOrder ∧
    options.parseAppenders true "dead_node,istio" =
      options.parseAppenders true "istio,dead_node" :=
  ⟨(c7_appender_fixed_order true "dead_node,istio").1,
   (c7_appender_fixed_order true "dead_node,istio").2 true "istio,dead_node" (by decide)⟩

/-- C5 counterexample: with a zero (unknown) namespace creation time the
code skips clamping and returns the requested duration unchanged, while the
claimed formula `min(requested, referenceTime - creationTime)` yields the
namespace lifetime; at creation time 0, query time `-62135596800` (so the
reference time equals the zero time) and requested duration 60 minutes the
two disagree. -/
theorem c5_counterexample :
    options.resolveNamespaceDuration 0 3600000000000 (-62135596800) 123 = 3600000000000 ∧
    options.specClampedDuration 0 3600000000000 (-62135596800) 123 = 0 ∧
    (3600000000000 : Int) ≠ 0 := by
  refine ⟨by decide, ?_, by decide⟩
  unfold options.specClampedDuration options.timeUnix options.unixToInternalSeconds
  decide

/-- C5 (amended): whenever the namespace creation time is nonzero,
`resolveNamespaceDuration` returns `min(requested, referenceTime -
creationTime)` (the difference saturated to the Duration range), where the
reference time is the query timestamp, or now when the query timestamp is
zero; a zero creation time leaves the requested duration unchanged. -/
theorem c5_resolveNamespaceDuration_min (c r qt now : Int) (hc : c ≠ 0) :
    options.resolveNamespaceDuration c r qt now =
      min r (options.timeSub (if qt ≠ 0 then options.timeUnix qt else now) c) := by
  simp only [options.resolveNamespaceDuration, if_pos hc, min_def]
  split_ifs <;> omega

theorem c5_resolveNamespaceDuration_min_witness :
    options.resolveNamespaceDuration (options.timeUnix 1000000) 3600000000000 1000600 0 =
      600000000000 := by
  rw [c5_resolveNamespaceDuration_min (options.timeUnix 1000000) 3600000000000 1000600 0
    (by decide)]
  decide

/-- C1 counterexample: two app nodes of the same namespace, app and the
*same* version still get a compound parent, because the code tests the
member count of a group, not its number of distinct versions; the claim's
"exactly one distinct version produces no compound and no Parent" is false. -/
theorem c1_counterexample :
    (([cexNodeA, cexNodeB].filter fun d =>
        d.NodeType == graph.NodeTypeApp && d.Namespace == "n" && d.App == "a").map
      fun d => d.Version).dedup = ["v"] ∧
    ((cytoscape.groupByVersion (fun s => s) [cexNodeA, cexNodeB]).countP fun d =>
      d.IsGroup == options.GroupByVersion) = 1 ∧
    ({ cexNodeA with Parent := "box_n_a" } : cytoscape.NodeData) ∈
      cytoscape.groupByVersion (fun s => s) [cexNodeA, cexNodeB] := by
  decide

theorem countP_updParent_zero (h : String → String) (nodes : List cytoscape.NodeData)
    (hgroup : ∀ d ∈ nodes, d.IsGroup = "") (k : String) :
    ((nodes.map (cytoscape.updParent h nodes)).countP fun d =>
      d.Id == h k && d.IsGroup == options.GroupByVersion) = 0 := by
  rw [List.countP_eq_zero]
  intro d hd
  obtain ⟨d0, hd0, rfl⟩ := List.mem_map.mp hd
  have hIs : (cytoscape.updParent h nodes d0).IsGroup = "" := by
    unfold cytoscape.updParent
    split <;> simp [hgroup d0 hd0]
  simp [hIs, options.GroupByVersion]

theorem countP_decide_eq {α : Type} [DecidableEq α] (l : List α) (k : α) (c : α → Bool) :
    (l.countP fun x => decide (x = k) && c x) = if c k then l.count k else 0 := by
  induction l with
  | nil => simp
  | cons a t ih =>
    rw [List.countP_cons, List.count_cons, ih]
    by_cases hak : a = k
    · subst hak
      by_cases hc : c a = true <;> simp [hc]
    · simp [hak, Ne.symm hak]

theorem countP_compounds (h : String → String) (hinj : Function.Injective h)
    (nodes : List cytoscape.NodeData) (k : String) :
    (((cytoscape.groupKeys nodes).filterMap (cytoscape.mkCompound h nodes)).countP fun d =>
      d.Id == h k && d.IsGroup == options.GroupByVersion) =
    (if k ∈ cytoscape.groupKeys nodes ∧ 1 < (cytoscape.groupMembers nodes k).length
      then 1 else 0) := by
  rw [List.countP_filterMap]
  have hq : ∀ k' ∈ cytoscape.groupKeys nodes,
      ((((cytoscape.mkCompound h nodes k').map fun d =>
        d.Id == h k && d.IsGroup == options.GroupByVersion).getD false) = true ↔
      (decide (k' = k) && decide (1 < (cytoscape.groupMembers nodes k').length)) = true) := by
    intro k' _
    have hinj_iff : (h k' = h k) ↔ (k' = k) := ⟨fun e => hinj e, fun e => e ▸ rfl⟩
    simp only [cytoscape.mkCompound]
    split_ifs with hlen
    · simp [cytoscape.nodeHash, hlen, hinj_iff]
    · simp [hlen]
  rw [List.countP_congr hq, countP_decide_eq]
  by_cases hlen : 1 < (cytoscape.groupMembers nodes k).length
  · rw [if_pos (by simp only [decide_eq_true_eq]; exact hlen)]
    by_cases hmem : k ∈ cytoscape.groupKeys nodes
    · rw [if_pos ⟨hmem, hlen⟩]
      have hnd : (cytoscape.groupKeys nodes).Nodup := List.nodup_dedup _
      have h1 : (cytoscape.groupKeys nodes).count k ≤ 1 :=
        List.nodup_iff_count_le_one.mp hnd k
      have h2 : 0 < (cytoscape.groupKeys nodes).count k := List.count_pos_iff.mpr hmem
      omega
    · rw [if_neg (fun hc => hmem hc.1)]
      exact List.count_eq_zero_of_not_mem hmem
  · rw [if_neg (by simp [hlen]), if_neg (fun hc => hlen hc.2)]

theorem mem_groupKeys_of_members (nodes : List cytoscape.NodeData) (k : String)
    (hne : cytoscape.groupMembers nodes k ≠ []) :
    k ∈ cytoscape.groupKeys nodes := by
  obtain ⟨d, hd⟩ := List.exists_mem_of_ne_nil _ hne
  have hd1 : d ∈ nodes := List.mem_of_mem_filter hd
  have hd2 := List.of_mem_filter hd
  simp only [Bool.and_eq_true, beq_iff_eq] at hd2
  unfold cytoscape.groupKeys
  rw [List.mem_dedup]
  exact List.mem_map.mpr ⟨d, List.mem_filter.mpr ⟨hd1, by simp [hd2.1]⟩, hd2.2⟩

/-- C1 (amended): the serializer's compound grouping groups app-type nodes by
the key `box_<namespace>_<app>`; a group with more than one member node
(even if all members share one version) gets exactly one compound parent
node with the hashed `box_<namespace>_<app>` id, and every member's Parent
is set to that hashed id; a group with at most one member gets no compound
and its member is left unchanged. -/
theorem c1_groupByVersion_member_threshold
    (h : String → String) (hinj : Function.Injective h)
    (nodes : List cytoscape.NodeData) (ns app : String)
    (hgroup : ∀ d ∈ nodes, d.IsGroup = "") :
    (1 < (cytoscape.groupMembers nodes (cytoscape.boxKey ns app)).length →
      ((cytoscape.groupByVersion h nodes).countP fun d =>
        d.Id == h (cytoscape.boxKey ns app) && d.IsGroup == options.GroupByVersion) = 1 ∧
      ∀ d ∈ cytoscape.groupMembers nodes (cytoscape.boxKey ns app),
        ({ d with Parent := h (cytoscape.boxKey ns app) } : cytoscape.NodeData) ∈
          cytoscape.groupByVersion h nodes) ∧
    ((cytoscape.groupMembers nodes (cytoscape.boxKey ns app)).length ≤ 1 →
      ((cytoscape.groupByVersion h nodes).countP fun d =>
        d.Id == h (cytoscape.boxKey ns app) && d.IsGroup == options.GroupByVersion) = 0 ∧
      ∀ d ∈ cytoscape.groupMembers nodes (cytoscape.boxKey ns app),
        d ∈ cytoscape.groupByVersion h nodes) := by
  constructor
  · intro hlen
    constructor
    · unfold cytoscape.groupByVersion
      rw [List.countP_append, countP_updParent_zero h nodes hgroup,
        countP_compounds h hinj nodes]
      have hne : cytoscape.groupMembers nodes (cytoscape.boxKey ns app) ≠ [] := by
        intro hc
        rw [hc] at hlen
        simp at hlen
      rw [if_pos ⟨mem_groupKeys_of_members nodes _ hne, hlen⟩]
    · intro d hd
      have hd1 : d ∈ nodes := List.mem_of_mem_filter hd
      have hd2 := List.of_mem_filter hd
      simp only [Bool.and_eq_true, beq_iff_eq] at hd2
      have hupd : cytoscape.updParent h nodes d =
          { d with Parent := h (cytoscape.boxKey ns app) } := by
        unfold cytoscape.updParent
        rw [if_pos ⟨hd2.1, by rw [hd2.2]; exact hlen⟩]
        unfold cytoscape.nodeHash
        rw [hd2.2]
      exact List.mem_append_left _ (hupd ▸ List.mem_map_of_mem _ hd1)
  · intro hlen
    constructor
    · unfold cytoscape.groupByVersion
      rw [List.countP_append, countP_updParent_zero h nodes hgroup,
        countP_compounds h hinj nodes]
      rw [if_neg (fun hc => by omega)]
    · intro d hd
      have hd1 : d ∈ nodes := List.mem_of_mem_filter hd
      have hd2 := List.of_mem_filter hd
      simp only [Bool.and_eq_true, beq_iff_eq] at hd2
      have hupd : cytoscape.updParent h nodes d = d := by
        unfold cytoscape.updParent
        rw [if_neg (fun hc => by rw [hd2.2] at hc; omega)]
      exact List.mem_append_left _ (hupd ▸ List.mem_map_of_mem _ hd1)

theorem c1_groupByVersion_member_threshold_witness :
    ((cytoscape.groupByVersion (fun s => s) [cexNodeA, cexNodeB]).countP fun d =>
      d.Id == ((fun (s : String) => s) (cytoscape.boxKey "n" "a")) &&
        d.IsGroup == options.GroupByVersion) = 1 :=
  ((c1_groupByVersion_member_threshold (fun s => s) (fun _ _ e => e)
    [cexNodeA, cexNodeB] "n" "a" (by decide)).1 (by decide)).1

/-- C6: for an edge with positive rate metadata (and a source with positive
outbound rate), the serialized percentRate field is present exactly when
`rate / rateOut * 100` is strictly less than 100; in particular an edge
whose rate equals its source's full outbound rate has no percentRate. -/
theorem c6_percentRate_omission (ed : cytoscape.EdgeData) (e : graph.Edge)
    (o : options.VendorOptions) (hnone : ed.PercentRate = none)
    (hr : 0 < cytoscape.getRate e.Metadata "rate")
    (hro : 0 < cytoscape.getRate e.Source.Metadata "rateOut") :
    ((cytoscape.addEdgeTelemetry ed e o).PercentRate ≠ none ↔
      cytoscape.getRate e.Metadata "rate" /
        cytoscape.getRate e.Source.Metadata "rateOut" * 100 < 100) ∧
    (cytoscape.getRate e.Metadata "rate" = cytoscape.getRate e.Source.Metadata "rateOut" →
      (cytoscape.addEdgeTelemetry ed e o).PercentRate = none) := by
  have hkey : (cytoscape.addEdgeTelemetry ed e o).PercentRate =
      if cytoscape.getRate e.Source.Metadata "rateOut" ≠ 0 ∧
          cytoscape.getRate e.Metadata "rate" /
            cytoscape.getRate e.Source.Metadata "rateOut" * 100 < 100 then
        some (cytoscape.getRate e.Metadata "rate" /
          cytoscape.getRate e.Source.Metadata "rateOut" * 100)
      else none := by
    simp only [cytoscape.addEdgeTelemetry]
    split_ifs <;> first | rfl | exact hnone
  have hne : cytoscape.getRate e.Source.Metadata "rateOut" ≠ 0 := ne_of_gt hro
  constructor
  · rw [hkey]
    by_cases hlt : cytoscape.getRate e.Metadata "rate" /
        cytoscape.getRate e.Source.Metadata "rateOut" * 100 < 100
    · rw [if_pos ⟨hne, hlt⟩]
      simp [hlt]
    · rw [if_neg (fun hc => hlt hc.2)]
      simp [hlt]
  · intro heq
    rw [hkey, if_neg]
    intro hc
    rw [heq, div_self hne, one_mul] at hc
    exact lt_irrefl 100 hc.2

theorem c6_percentRate_omission_witness :
    (cytoscape.addEdgeTelemetry {} cexEdge {}).PercentRate ≠ none :=
  (c6_percentRate_omission {} cexEdge {} rfl
    (show (0 : ℚ) < 5 by norm_num)
    (show (0 : ℚ) < 10 by norm_num)).1.mpr
    (show (5 : ℚ) / 10 * 100 < 100 by norm_num)

theorem strLt_iff (a b : String) : cytoscape.strLt a b = true ↔ a < b := by
  rw [cytoscape.strLt, decide_eq_true_eq, String.lt_iff_toList_lt]

theorem nodeLess_iff_lt (a b : cytoscape.NodeData) :
    cytoscape.nodeLess a b = true ↔ cytoscape.nodeSortKey a < cytoscape.nodeSortKey b := by
  unfold cytoscape.nodeLess cytoscape.nodeSortKey
  by_cases h1 : a.Namespace = b.Namespace <;>
    by_cases h2 : a.IsGroup = b.IsGroup <;>
      by_cases h3 : a.App = b.App <;>
        by_cases h4 : a.Version = b.Version <;>
          by_cases h5 : a.Service = b.Service <;>
            simp [h1, h2, h3, h4, h5, Prod.Lex.lt_iff, OrderDual.toDual_lt_toDual,
              lt_irrefl, strLt_iff]

theorem nodeLe_iff_le (a b : cytoscape.NodeData) :
    cytoscape.nodeLe a b = true ↔ cytoscape.nodeSortKey a ≤ cytoscape.nodeSortKey b := by
  constructor
  · intro h
    refine not_lt.mp fun hlt => ?_
    have hb := (nodeLess_iff_lt b a).mpr hlt
    rw [cytoscape.nodeLe, hb] at h
    exact absurd h (by decide)
  · intro h
    have hb : cytoscape.nodeLess b a = false := by
      by_contra hc
      have ht : cytoscape.nodeLess b a = true := by
        revert hc
        cases cytoscape.nodeLess b a <;> simp
      exact absurd ((nodeLess_iff_lt b a).mp ht) (not_lt.mpr h)
    rw [cytoscape.nodeLe, hb]
    rfl

theorem edgeLess_iff_lt (a b : cytoscape.EdgeData) :
    cytoscape.edgeLess a b = true ↔ cytoscape.edgeSortKey a < cytoscape.edgeSortKey b := by
  unfold cytoscape.edgeLess cytoscape.edgeSortKey
  rcases lt_trichotomy a.Source b.Source with hlt | heq | hgt
  · simp [hlt, Prod.Lex.lt_iff, strLt_iff]
  · simp [heq, lt_irrefl, Prod.Lex.lt_iff, strLt_iff]
  · simp [hgt, lt_asymm hgt, ne_of_gt hgt, Prod.Lex.lt_iff, strLt_iff]

theorem edgeLe_iff_le (a b : cytoscape.EdgeData) :
    cytoscape.edgeLe a b = true ↔ cytoscape.edgeSortKey a ≤ cytoscape.edgeSortKey b := by
  constructor
  · intro h
    refine not_lt.mp fun hlt => ?_
    have hb := (edgeLess_iff_lt b a).mpr hlt
    rw [cytoscape.edgeLe, hb] at h
    exact absurd h (by decide)
  · intro h
    have hb : cytoscape.edgeLess b a = false := by
      by_contra hc
      have ht : cytoscape.edgeLess b a = true := by
        revert hc
        cases cytoscape.edgeLess b a <;> simp
      exact absurd ((edgeLess_iff_lt b a).mp ht) (not_lt.mpr h)
    rw [cytoscape.edgeLe, hb]
    rfl

theorem mergeSort_eq_of_perm_of_nodup_keys {α K : Type} [LinearOrder K]
    (key : α → K) (le : α → α → Bool)
    (hle : ∀ a b, le a b = true ↔ key a ≤ key b)
    {l1 l2 : List α} (hp : l1.Perm l2) (hnd : (l1.map key).Nodup) :
    l1.mergeSort le = l2.mergeSort le := by
  have htrans : ∀ (a b c : α), le a b → le b c → le a c := fun a b c hab hbc =>
    (hle a c).mpr (le_trans ((hle a b).mp hab) ((hle b c).mp hbc))
  have htotal : ∀ (a b : α), le a b || le b a := by
    intro a b
    rcases le_total (key a) (key b) with h | h
    · simp [(hle a b).mpr h]
    · simp [(hle b a).mpr h]
  have s1 := List.sorted_mergeSort htrans htotal l1
  have s2 := List.sorted_mergeSort htrans htotal l2
  have p1 : (l1.mergeSort le).Perm l1 := List.mergeSort_perm l1 le
  have p2 : (l2.mergeSort le).Perm l2 := List.mergeSort_perm l2 le
  have pp : (l1.mergeSort le).Perm (l2.mergeSort le) := p1.trans (hp.trans p2.symm)
  have nd1 : ((l1.mergeSort le).map key).Nodup := ((p1.map key).nodup_iff).mpr hnd
  have nd2 : ((l2.mergeSort le).map key).Nodup := (((pp.symm).map key).nodup_iff).mpr nd1
  have hstrict : ∀ (l : List α), l.Pairwise (fun x y => le x y = true) →
      ((l.map key).Nodup) → l.Pairwise (fun x y => key x < key y) := by
    intro l hs hn
    have hne : l.Pairwise (fun x y => key x ≠ key y) := (List.pairwise_map).mp hn
    exact (hs.and hne).imp fun hxy => lt_of_le_of_ne ((hle _ _).mp hxy.1) hxy.2
  haveI : IsAntisymm α (fun x y => key x < key y) :=
    ⟨fun x y hxy hyx => absurd hyx (lt_asymm hxy)⟩
  exact List.eq_of_perm_of_sorted pp (hstrict _ s1 nd1) (hstrict _ s2 nd2)

theorem mergeSort_pairwise_key {α K : Type} [LinearOrder K] (key : α → K)
    (le : α → α → Bool) (hle : ∀ a b, le a b = true ↔ key a ≤ key b) (l : List α) :
    (l.mergeSort le).Pairwise (fun x y => key x ≤ key y) := by
  have htrans : ∀ (a b c : α), le a b → le b c → le a c := fun a b c hab hbc =>
    (hle a c).mpr (le_trans ((hle a b).mp hab) ((hle b c).mp hbc))
  have htotal : ∀ (a b : α), le a b || le b a := by
    intro a b
    rcases le_total (key a) (key b) with h | h
    · simp [(hle a b).mpr h]
    · simp [(hle b a).mpr h]
  exact (List.sorted_mergeSort htrans htotal l).imp fun hxy => (hle _ _).mp hxy

theorem perm_any_eq {α : Type} {l1 l2 : List α} (hp : l1.Perm l2) (p : α → Bool) :
    l1.any p = l2.any p := by
  rw [Bool.eq_iff_iff]
  simp only [List.any_eq_true]
  exact ⟨fun ⟨x, hx, hpx⟩ => ⟨x, hp.mem_iff.mp hx, hpx⟩,
    fun ⟨x, hx, hpx⟩ => ⟨x, hp.mem_iff.mpr hx, hpx⟩⟩

theorem updParent_congr (h : String → String) {d1 d2 : List cytoscape.NodeData}
    (hp : d1.Perm d2) : cytoscape.updParent h d1 = cytoscape.updParent h d2 := by
  funext d
  have hlen : (cytoscape.groupMembers d1 (cytoscape.boxKey d.Namespace d.App)).length =
      (cytoscape.groupMembers d2 (cytoscape.boxKey d.Namespace d.App)).length :=
    (hp.filter _).length_eq
  unfold cytoscape.updParent
  rw [hlen]

theorem mkCompound_congr (h : String → String) {d1 d2 : List cytoscape.NodeData}
    (hp : d1.Perm d2)
    (hbox : ∀ x ∈ d1, ∀ y ∈ d1,
      x.NodeType = graph.NodeTypeApp → y.NodeType = graph.NodeTypeApp →
      cytoscape.boxKey x.Namespace x.App = cytoscape.boxKey y.Namespace y.App →
      x.Namespace = y.Namespace ∧ x.App = y.App) :
    cytoscape.mkCompound h d1 = cytoscape.mkCompound h d2 := by
  funext k
  have hm : (cytoscape.groupMembers d1 k).Perm (cytoscape.groupMembers d2 k) :=
    hp.filter _
  have hlen := hm.length_eq
  simp only [cytoscape.mkCompound]
  rw [hlen]
  split_ifs with hl
  · obtain ⟨m1, t1, he1⟩ : ∃ m t, cytoscape.groupMembers d1 k = m :: t := by
      cases hx : cytoscape.groupMembers d1 k with
      | nil => rw [hx] at hlen; rw [← hlen] at hl; simp at hl
      | cons m t => exact ⟨m, t, rfl⟩
    obtain ⟨m2, t2, he2⟩ : ∃ m t, cytoscape.groupMembers d2 k = m :: t := by
      cases hx : cytoscape.groupMembers d2 k with
      | nil => rw [hx] at hl; simp at hl
      | cons m t => exact ⟨m, t, rfl⟩
    have hm1 : m1 ∈ cytoscape.groupMembers d1 k := he1 ▸ List.mem_cons_self m1 t1
    have hm2 : m2 ∈ cytoscape.groupMembers d1 k :=
      hm.mem_iff.mpr (he2 ▸ List.mem_cons_self m2 t2)
    have f1 := List.of_mem_filter hm1
    have f2 := List.of_mem_filter hm2
    simp only [Bool.and_eq_true, beq_iff_eq] at f1 f2
    have heq := hbox m1 (List.mem_of_mem_filter hm1) m2 (List.mem_of_mem_filter hm2)
      f1.1 f2.1 (f1.2.trans f2.2.symm)
    have hh1 : (cytoscape.groupMembers d1 k).headI = m1 := by rw [he1]; rfl
    have hh2 : (cytoscape.groupMembers d2 k).headI = m2 := by rw [he2]; rfl
    rw [hh1, hh2, heq.1, heq.2,
      perm_any_eq hm (fun m => m.HasMissingSC),
      perm_any_eq hm (fun m => m.IsInaccessible),
      perm_any_eq hm (fun m => m.IsOutside)]
  · rfl

theorem groupByVersion_perm (h : String → String) {d1 d2 : List cytoscape.NodeData}
    (hp : d1.Perm d2)
    (hbox : ∀ x ∈ d1, ∀ y ∈ d1,
      x.NodeType = graph.NodeTypeApp → y.NodeType = graph.NodeTypeApp →
      cytoscape.boxKey x.Namespace x.App = cytoscape.boxKey y.Namespace y.App →
      x.Namespace = y.Namespace ∧ x.App = y.App) :
    (cytoscape.groupByVersion h d1).Perm (cytoscape.groupByVersion h d2) := by
  unfold cytoscape.groupByVersion
  refine List.Perm.append ?_ ?_
  · rw [updParent_congr h hp]
    exact hp.map _
  · rw [mkCompound_congr h hp hbox]
    exact (((hp.filter _).map _).dedup).filterMap _

/-- C8 (amended): serialization is deterministic and sorted provided the
sort keys are collision-free: when no two serialized nodes share the full
node sort key (namespace, isGroup, app, version, service, workload), no two
serialized edges share the (source, target) hash pair, and distinct box keys
of app nodes come from distinct (namespace, app) pairs, two serializations
of permuted traffic-map iteration orders are identical, with the node array
pairwise sorted by the node key and the edge array pairwise sorted by
(source, target); with key ties, Go's unstable sort makes the order of tied
elements unspecified. -/
theorem c8_newConfig_deterministic (h : String → String) (o : options.VendorOptions)
    {l1 l2 : graph.TrafficMap} (hp : l1.Perm l2)
    (hbox : ∀ x ∈ (cytoscape.buildConfig h l1 o).1, ∀ y ∈ (cytoscape.buildConfig h l1 o).1,
      x.NodeType = graph.NodeTypeApp → y.NodeType = graph.NodeTypeApp →
      cytoscape.boxKey x.Namespace x.App = cytoscape.boxKey y.Namespace y.App →
      x.Namespace = y.Namespace ∧ x.App = y.App)
    (hnodes : ((cytoscape.groupAppliedNodes h l1 o).map cytoscape.nodeSortKey).Nodup)
    (hedges : (((cytoscape.buildConfig h l1 o).2).map cytoscape.edgeSortKey).Nodup) :
    cytoscape.NewConfig h l1 o = cytoscape.NewConfig h l2 o ∧
    ((cytoscape.NewConfig h l1 o).Elements.Nodes).Pairwise
      (fun x y => cytoscape.nodeSortKey x ≤ cytoscape.nodeSortKey y) ∧
    ((cytoscape.NewConfig h l1 o).Elements.Edges).Pairwise
      (fun x y => cytoscape.edgeSortKey x ≤ cytoscape.edgeSortKey y) := by
  have hpn : (cytoscape.groupAppliedNodes h l1 o).Perm (cytoscape.groupAppliedNodes h l2 o) := by
    unfold cytoscape.groupAppliedNodes
    split_ifs
    · exact groupByVersion_perm h (hp.map _) hbox
    · exact hp.map _
  have hpe : ((cytoscape.buildConfig h l1 o).2).Perm ((cytoscape.buildConfig h l2 o).2) :=
    hp.flatMap_right _
  refine ⟨?_, ?_, ?_⟩
  · have e1 := mergeSort_eq_of_perm_of_nodup_keys cytoscape.nodeSortKey cytoscape.nodeLe
      nodeLe_iff_le hpn hnodes
    have e2 := mergeSort_eq_of_perm_of_nodup_keys cytoscape.edgeSortKey cytoscape.edgeLe
      edgeLe_iff_le hpe hedges
    simp only [cytoscape.NewConfig, e1, e2]
  · exact mergeSort_pairwise_key cytoscape.nodeSortKey cytoscape.nodeLe nodeLe_iff_le _
  · exact mergeSort_pairwise_key cytoscape.edgeSortKey cytoscape.edgeLe edgeLe_iff_le _

theorem c8_newConfig_deterministic_witness :
    cytoscape.NewConfig (fun s => s) [("c", cexTMc), ("d", cexTMd)] {} =
      cytoscape.NewConfig (fun s => s) [("d", cexTMd), ("c", cexTMc)] {} :=
  (c8_newConfig_deterministic (fun s => s) {}
    (List.Perm.swap ("d", cexTMd) ("c", cexTMc) [])
    (by decide) (by decide) (by decide)).1

/-- C8 counterexample: two traffic-map entries whose nodes tie on every sort
field but have different ids; the two iteration orders serialize to
different node arrays, so serialization is not independent of map iteration
order in general. -/
theorem c8_counterexample :
    ([("a", cexTMa), ("b", cexTMb)] : graph.TrafficMap).Perm
      [("b", cexTMb), ("a", cexTMa)] ∧
    (cytoscape.NewConfig (fun s => s) [("a", cexTMa), ("b", cexTMb)] {}).Elements.Nodes ≠
      (cytoscape.NewConfig (fun s => s) [("b", cexTMb), ("a", cexTMa)] {}).Elements.Nodes := by
  refine ⟨List.Perm.swap ("b", cexTMb) ("a", cexTMa) [], ?_⟩
  have e1 : (cytoscape.groupAppliedNodes (fun s => s)
        [("a", cexTMa), ("b", cexTMb)] {}).mergeSort cytoscape.nodeLe =
      cytoscape.groupAppliedNodes (fun s => s) [("a", cexTMa), ("b", cexTMb)] {} :=
    List.mergeSort_of_sorted (by decide)
  have e2 : (cytoscape.groupAppliedNodes (fun s => s)
        [("b", cexTMb), ("a", cexTMa)] {}).mergeSort cytoscape.nodeLe =
      cytoscape.groupAppliedNodes (fun s => s) [("b", cexTMb), ("a", cexTMa)] {} :=
    List.mergeSort_of_sorted (by decide)
  show (cytoscape.groupAppliedNodes (fun s => s)
      [("a", cexTMa), ("b", cexTMb)] {}).mergeSort cytoscape.nodeLe ≠
    (cytoscape.groupAppliedNodes (fun s => s)
      [("b", cexTMb), ("a", cexTMa)] {}).mergeSort cytoscape.nodeLe
  rw [e1, e2]
  decide
